import Mathlib

/-!
Shallow embedding of the reddit-mcp repository (src/server/reddit.py and
src/client.py) and verification of its specification claims.

Modelling conventions:
* UNIX timestamps (Python floats from `time.time()` / `created_utc`) are
  modelled as `Int` seconds; every operation on them in the source is a
  subtraction or an order comparison, both of which the integer model
  reflects exactly.
* The external Reddit API (praw) is modelled by its responses: a provider
  result list for `subreddit.search(...)`, an environment mapping ids to
  submissions for `reddit.submission(id=...)`, and an already-expanded flat
  comment list for `comments.replace_more(limit=0)` followed by
  `comments.list()`.  Calls to these externals are recorded in an `ApiCall`
  trace where a claim is about how often they happen.
* The LLM providers are modelled by scripted completion sequences consumed
  in order; tool invocation (`session.call_tool`) is a function returning
  `Except` (an exception or a result).  Python exceptions are modelled by
  an error result that carries the session history reached so far, since
  `self.messages` is instance state that survives the exception.
-/

namespace RedditMcp

/-! ## Server side: src/server/reddit.py -/

/-- A praw submission object, restricted to the attributes the source reads. -/
structure Submission where
  id : String
  title : String
  selftext : String
  url : String
  score : Int
  num_comments : Int
  created_utc : Int
deriving Repr, DecidableEq

/-- The dictionary built by `get_post_details` (reddit.py lines 56-64). -/
structure PostDetails where
  id : String
  title : String
  selftext : String
  url : String
  score : Int
  num_comments : Int
  created_utc : Int
deriving Repr, DecidableEq

/-- `get_post_details(submission)` (reddit.py lines 46-64): extracts the
seven detail fields of a submission into a plain record. -/
def get_post_details (submission : Submission) : PostDetails :=
  { id := submission.id
    title := submission.title
    selftext := submission.selftext
    url := submission.url
    score := submission.score
    num_comments := submission.num_comments
    created_utc := submission.created_utc }

/-- `compute_threshold(time_filter)` (reddit.py lines 21-43).  `now` is the
value of `time.time()` at the call; `none` models Python `None`. -/
def compute_threshold (time_filter : String) (now : Int) : Option Int :=
  if time_filter = "hour" then some (now - 3600)
  else if time_filter = "day" then some (now - 86400)
  else if time_filter = "week" then some (now - 7 * 86400)
  else if time_filter = "month" then some (now - 30 * 86400)
  else if time_filter = "year" then some (now - 365 * 86400)
  else none

/-- `search_posts` (reddit.py lines 66-102), local part.  `providerResults`
is the list the blocking `subreddit_instance.search(query, sort=sort,
time_filter=time_filter, limit=limit)` call returned (the query, subreddit,
sort and limit arguments only shape that provider response).  The function
then filters locally by `submission.created_utc >= threshold` when
`compute_threshold` returned a timestamp, and maps `get_post_details` over
the survivors. -/
def search_posts (providerResults : List Submission) (time_filter : String)
    (now : Int) : List PostDetails :=
  let submissions := providerResults
  let submissions :=
    match compute_threshold time_filter now with
    | some threshold =>
        submissions.filter fun (submission : Submission) =>
          decide (threshold ≤ submission.created_utc)
    | none => submissions
  submissions.map get_post_details

/-- A praw comment object, restricted to the attributes the source reads. -/
structure Comment where
  id : String
  body : String
  score : Int
  created_utc : Int
deriving Repr, DecidableEq

/-- The dictionary built per comment in `get_submission_comments`
(reddit.py lines 124-129). -/
structure CommentRecord where
  id : String
  body : String
  score : Int
  created_utc : Int
deriving Repr, DecidableEq

def toCommentRecord (c : Comment) : CommentRecord :=
  { id := c.id, body := c.body, score := c.score, created_utc := c.created_utc }

/-- A submission as seen by `get_submission_comments`: its id together with
the flat comment list that `submission.comments.replace_more(limit=0)`
followed by `submission.comments.list()` yields (the praw-side expansion is
external; we model its result). -/
structure SubmissionC where
  id : String
  commentsAfterExpansion : List Comment
deriving Repr, DecidableEq

/-- External praw calls recorded while a tool runs. -/
inductive ApiCall where
  | replaceMore (sid : String)
  | listComments (sid : String)
  | fetchSubmission (sid : String)
deriving Repr, DecidableEq

/-- The `for comment in comments_list` loop of `get_submission_comments`
(reddit.py lines 120-130): `count` starts at 0 and the loop breaks as soon
as `count >= limit`, otherwise appends the comment record and increments. -/
def comments_take_loop : List Comment → Int → Nat → List CommentRecord
  | [], _, _ => []
  | comment :: rest, limit, count =>
    if (count : Int) ≥ limit then []
    else toCommentRecord comment :: comments_take_loop rest limit (count + 1)

/-- `get_submission_comments(submission, limit)` (reddit.py lines 104-131):
runs `replace_more(limit=0)` once, lists the comments, then takes records
with the counting loop.  Returns the records together with the trace of
external praw calls made. -/
def get_submission_comments (submission : SubmissionC) (limit : Int) :
    List CommentRecord × List ApiCall :=
  (comments_take_loop submission.commentsAfterExpansion limit 0,
   [ApiCall.replaceMore submission.id, ApiCall.listComments submission.id])

/-- One entry of the `search_comments_in_posts` result: the post-details
dictionary with the extra `comments` key (reddit.py line 159). -/
structure PostWithComments where
  post : PostDetails
  comments : List CommentRecord
deriving Repr, DecidableEq

/-- `search_comments_in_posts` (reddit.py lines 133-161): runs
`search_posts`, then for each detail record re-fetches the submission by
`details['id']` (`env` models `reddit.submission(id=...)`), fetches its
comments with `get_submission_comments(submission, limit=comment_limit)`,
and appends the augmented record. -/
def search_comments_in_posts (providerResults : List Submission)
    (time_filter : String) (now : Int) (comment_limit : Int)
    (env : String → SubmissionC) : List PostWithComments :=
  let posts_details := search_posts providerResults time_filter now
  posts_details.map fun details =>
    let submission := env details.id
    let comments := (get_submission_comments submission comment_limit).1
    { post := details, comments := comments }

/-! ## Client side: src/client.py

The two provider bindings `process_query_claude` (lines 69-129) and
`process_query_gpt` (lines 133-210) are modelled against a scripted LLM:
a list of completions consumed in the order the binding issues
`messages.create` / `chat.completions.create` calls.  `toolFn` models
`session.call_tool`; `.error e` models the call raising exception `e`. -/

/-- One element of an OpenAI message's `tool_calls`: id plus
`function.name` and `function.arguments` (arguments modelled in their
decoded structured form; the `isinstance(str) -> json.loads` branch of
lines 183-184 only converts the encoded text into that form). -/
structure GptToolCall where
  id : String
  name : String
  arguments : String
deriving Repr, DecidableEq

/-- An OpenAI chat completion message: optional text `content` and a list
of tool calls (`None` and `[]` both model as the empty list / `none`). -/
structure GptMessage where
  content : Option String
  tool_calls : List GptToolCall
deriving Repr, DecidableEq

/-- A message in `self.messages`.  `plain role content` models the literal
dictionaries the code appends; `gptAssistant m` models the provider message
object appended verbatim at client.py line 191; `toolMsg` models the
role-tool dictionary with `tool_call_id` of client.py lines 192-198. -/
inductive Msg where
  | plain (role : String) (content : String)
  | gptAssistant (m : GptMessage)
  | toolMsg (tool_call_id : String) (content : String)
deriving Repr, DecidableEq

def Msg.role : Msg → String
  | .plain r _ => r
  | .gptAssistant _ => "assistant"
  | .toolMsg _ _ => "tool"

/-- A content block of an Anthropic completion: `content.type` is either
`'text'` or `'tool_use'` (with `name` and `input`; a tool_use block has no
`text` attribute, so the `hasattr(content, 'text')` test at client.py
line 110 is False for it). -/
inductive ClaudeBlock where
  | text (s : String)
  | toolUse (name : String) (args : String)
deriving Repr, DecidableEq

abbrev ClaudeCompletion := List ClaudeBlock

/-- Result of one `process_query_*` call.  Python exceptions surface as
`err`; both constructors carry the `self.messages` instance state, which
survives an exception unrolled only to the point it had reached. -/
inductive QueryResult where
  | ok (answer : String) (history : List Msg)
  | err (e : String) (history : List Msg)
deriving Repr, DecidableEq

def QueryResult.answer? : QueryResult → Option String
  | .ok a _ => some a
  | .err _ _ => none

def QueryResult.history : QueryResult → List Msg
  | .ok _ h => h
  | .err _ h => h

/-- The trace fragment `f"[Calling tool {tool_name} with args {tool_args}]"`
(client.py lines 107 and 188). -/
def callTrace (name args : String) : String :=
  "[Calling tool " ++ name ++ " with args " ++ args ++ "]"

/-- The `for content in response.content` loop of `process_query_claude`
(client.py lines 98-127).  Python evaluates `response.content` once, so the
loop runs over the *initial* completion's blocks even though `response` is
reassigned inside; each `tool_use` block triggers one `call_tool` and one
follow-up `messages.create` (consuming the next scripted completion), whose
`content[0].text` is appended to `final_text` without any inspection for
further tool requests.  An empty follow-up raises IndexError at
`content[0]`; a follow-up starting with a tool_use block raises
AttributeError at `.text`.  The tool result is appended to history with
role `"user"` (line 116); no assistant message is appended because a
tool_use block has no `text` attribute (line 110). -/
def claudeLoop (toolFn : String → String → Except String String) :
    List ClaudeBlock → List ClaudeCompletion → List Msg → List String →
    Except (String × List Msg) (List Msg × List String)
  | [], _, msgs, final_text => .ok (msgs, final_text)
  | ClaudeBlock.text s :: rest, script, msgs, final_text =>
      claudeLoop toolFn rest script msgs (final_text ++ [s])
  | ClaudeBlock.toolUse name args :: rest, script, msgs, final_text =>
      match toolFn name args with
      | .error e => .error (e, msgs)
      | .ok result =>
        let final_text := final_text ++ [callTrace name args]
        let msgs := msgs ++ [Msg.plain "user" result]
        match script with
        | [] => .error ("anthropic API not scripted", msgs)
        | followUp :: script =>
          match followUp with
          | [] => .error ("IndexError", msgs)
          | ClaudeBlock.text t :: _ =>
              claudeLoop toolFn rest script msgs (final_text ++ [t])
          | ClaudeBlock.toolUse _ _ :: _ => .error ("AttributeError", msgs)

/-- `process_query_claude(query)` (client.py lines 69-129): appends the
user message, issues the initial completion (the first scripted
completion), runs the block loop, and returns `"\n".join(final_text)`. -/
def process_query_claude (toolFn : String → String → Except String String)
    (script : List ClaudeCompletion) (msgs : List Msg) (query : String) :
    QueryResult :=
  let msgs := msgs ++ [Msg.plain "user" query]
  match script with
  | [] => .err "anthropic API not scripted" msgs
  | completion :: script =>
    match claudeLoop toolFn completion script msgs [] with
    | .error (e, m) => .err e m
    | .ok (m, final_text) => .ok (String.intercalate "\n" final_text) m

/-- Python truthiness of `message.content` (client.py line 175): `None` and
the empty string are falsy. -/
def contentTruthy : Option String → Bool
  | none => false
  | some c => c ≠ ""

/-- The `for tool_call in message.tool_calls` loop of `process_query_gpt`
(client.py lines 178-198).  Note `self.messages.append(message)` sits
*inside* this loop (line 191), so the assistant message object is appended
once per tool call, each time immediately followed by the corresponding
tool-result message.  `call_tool` raising aborts the loop with the history
reached so far. -/
def gptToolCalls (toolFn : String → String → Except String String)
    (message : GptMessage) :
    List GptToolCall → List Msg → List String →
    Except (String × List Msg) (List Msg × List String)
  | [], msgs, final_text => .ok (msgs, final_text)
  | tc :: rest, msgs, final_text =>
    match toolFn tc.name tc.arguments with
    | .error e => .error (e, msgs)
    | .ok result =>
        gptToolCalls toolFn message rest
          (msgs ++ [Msg.gptAssistant message, Msg.toolMsg tc.id result])
          (final_text ++ [callTrace tc.name tc.arguments])

/-- The `while True` loop of `process_query_gpt` (client.py lines 174-208):
appends `message.content` to `final_text` when truthy; if `message.tool_calls`
is truthy, runs every tool call, requests the next completion (consuming the
next scripted message) and repeats on it; otherwise breaks and returns
`"\n".join(final_text)`. -/
def gptLoop (toolFn : String → String → Except String String) :
    GptMessage → List GptMessage → List Msg → List String → QueryResult
  | message, script, msgs, final_text =>
    let final_text :=
      if contentTruthy message.content then final_text ++ [message.content.getD ""]
      else final_text
    match message.tool_calls with
    | [] => .ok (String.intercalate "\n" final_text) msgs
    | tc :: rest =>
      match gptToolCalls toolFn message (tc :: rest) msgs final_text with
      | .error (e, m) => .err e m
      | .ok (msgs, final_text) =>
        match script with
        | [] => .err "openai API not scripted" msgs
        | message2 :: script => gptLoop toolFn message2 script msgs final_text

/-- `process_query_gpt(query)` (client.py lines 133-210): prepends the
system-prompt message when the history is empty, appends the user message,
issues the initial completion (the first scripted message) and runs the
loop. -/
def process_query_gpt (toolFn : String → String → Except String String)
    (script : List GptMessage) (msgs : List Msg) (system_prompt : String)
    (query : String) : QueryResult :=
  let msgs := if msgs.isEmpty then [Msg.plain "system" system_prompt] else msgs
  let msgs := msgs ++ [Msg.plain "user" query]
  match script with
  | [] => .err "openai API not scripted" msgs
  | message :: script => gptLoop toolFn message script msgs []

/-! ### Provider-agnostic scripted completions (for comparing the bindings) -/

/-- A provider-agnostic completion fragment (spec §4.1 step 4): plain text
or a tool-invocation request. -/
inductive Fragment where
  | text (s : String)
  | toolReq (name : String) (args : String)
deriving Repr, DecidableEq

abbrev ScriptedCompletion := List Fragment

/-- Render a scripted completion in the Anthropic content-block shape. -/
def toClaudeBlocks (c : ScriptedCompletion) : List ClaudeBlock :=
  c.map fun f =>
    match f with
    | Fragment.text s => ClaudeBlock.text s
    | Fragment.toolReq n a => ClaudeBlock.toolUse n a

/-- Render a scripted completion in the OpenAI message shape: the first
text fragment becomes `content` (an OpenAI message carries at most one text
body) and the tool requests become `tool_calls` with synthetic ids. -/
def toGptMessage (c : ScriptedCompletion) : GptMessage :=
  { content :=
      (c.filterMap fun f =>
        match f with
        | Fragment.text s => some s
        | Fragment.toolReq _ _ => none).head?
    tool_calls :=
      (c.filterMap fun f =>
        match f with
        | Fragment.text _ => none
        | Fragment.toolReq n a => some (n, a)).map fun p =>
          { id := "call", name := p.1, arguments := p.2 } }

/-! ## Entry loops: src/client.py chat_loop and query_loop -/

/-- `chat_loop` (client.py lines 213-229), modelled by the sequence of
queries it passes to `process_query_claude`.  `inputs` are the successive
`input()` lines; `outcomes` the successive results of
`process_query_claude` (`.error` = the call raised).  Each line is
stripped; the literal (case-insensitive) `quit` breaks.  An exception is
caught, printed, and the loop moves on to the *next* input line — the
outcome never causes the same query to be issued again, which is why the
returned invocation list does not depend on `outcomes`. -/
def chat_loop : List String → List (Except String String) → List String
  | [], _ => []
  | line :: rest, outcomes =>
    let query := line.trim
    if query.toLower = "quit" then []
    else query :: chat_loop rest outcomes.tail

/-- `query_loop(query)` (client.py lines 231-240): `while True` around one
`process_query_claude(query)`; on success, returns the response; on
exception, prints the error and loops — issuing the *same* query again.
Returns the list of queries passed to `process_query_claude` (one per
consumed outcome) and the final response, `none` when every supplied
outcome was an exception (the real loop would still be running). -/
def query_loop (query : String) : List (Except String String) → List String × Option String
  | [] => ([], none)
  | Except.ok r :: _ => ([query], some r)
  | Except.error _ :: rest =>
    let p := query_loop query rest
    (query :: p.1, p.2)

/-! ## Helper lemmas -/

theorem filter_ge_eq_filter_not_lt (l : List Submission) (cutoff : Int) :
    (l.filter fun (submission : Submission) =>
        decide (cutoff ≤ submission.created_utc)) =
      (l.filter fun (submission : Submission) =>
        !decide (submission.created_utc < cutoff)) := by
  apply List.filter_congr
  intro s _
  rw [← decide_not]
  exact decide_eq_decide.mpr (by omega)

theorem comments_take_loop_eq_take (l : List Comment) (limit : Int) (count : Nat) :
    comments_take_loop l limit count =
      (l.map toCommentRecord).take (limit - count).toNat := by
  induction l generalizing count with
  | nil => simp [comments_take_loop]
  | cons c rest ih =>
    simp only [comments_take_loop, List.map_cons]
    by_cases h : (count : Int) ≥ limit
    · rw [if_pos h]
      have hz : (limit - count).toNat = 0 := by omega
      rw [hz, List.take_zero]
    · rw [if_neg h]
      rw [ih (count + 1)]
      have hsucc : (limit - count).toNat = (limit - ((count : Nat) + 1 : Nat)).toNat + 1 := by
        push_cast
        omega
      rw [hsucc, List.take_succ_cons]

theorem get_submission_comments_records (s : SubmissionC) (limit : Int) :
    (get_submission_comments s limit).1 =
      (s.commentsAfterExpansion.map toCommentRecord).take limit.toNat := by
  have h := comments_take_loop_eq_take s.commentsAfterExpansion limit 0
  simpa [get_submission_comments] using h

theorem get_submission_comments_length_le (s : SubmissionC) (limit : Int) :
    (get_submission_comments s limit).1.length ≤ limit.toNat := by
  rw [get_submission_comments_records]
  exact List.length_take_le _ _

/-! ## Claims -/

/-- C3: for every time_filter in hour/day/week/month/year, `search_posts`
excludes from the provider results exactly those whose creation time is
strictly earlier than now minus 3600 / 86400 / 7·86400 / 30·86400 /
365·86400 seconds respectively, and for "all" or any unrecognized value it
applies no cutoff filtering (the provider result set, which is already
subject to the provider-side `limit`, passes through unchanged). -/
theorem search_posts_time_filter_cutoff (providerResults : List Submission) (now : Int) :
    search_posts providerResults "hour" now =
      (providerResults.filter fun (s : Submission) =>
        !decide (s.created_utc < now - 3600)).map get_post_details ∧
    search_posts providerResults "day" now =
      (providerResults.filter fun (s : Submission) =>
        !decide (s.created_utc < now - 86400)).map get_post_details ∧
    search_posts providerResults "week" now =
      (providerResults.filter fun (s : Submission) =>
        !decide (s.created_utc < now - 7 * 86400)).map get_post_details ∧
    search_posts providerResults "month" now =
      (providerResults.filter fun (s : Submission) =>
        !decide (s.created_utc < now - 30 * 86400)).map get_post_details ∧
    search_posts providerResults "year" now =
      (providerResults.filter fun (s : Submission) =>
        !decide (s.created_utc < now - 365 * 86400)).map get_post_details ∧
    ∀ tf : String, tf ∉ ["hour", "day", "week", "month", "year"] →
      search_posts providerResults tf now = providerResults.map get_post_details := by
  refine ⟨?_, ?_, ?_, ?_, ?_, ?_⟩
  · rw [show search_posts providerResults "hour" now =
        (providerResults.filter fun (s : Submission) =>
          decide (now - 3600 ≤ s.created_utc)).map get_post_details from rfl,
      filter_ge_eq_filter_not_lt]
  · rw [show search_posts providerResults "day" now =
        (providerResults.filter fun (s : Submission) =>
          decide (now - 86400 ≤ s.created_utc)).map get_post_details from rfl,
      filter_ge_eq_filter_not_lt]
  · rw [show search_posts providerResults "week" now =
        (providerResults.filter fun (s : Submission) =>
          decide (now - 7 * 86400 ≤ s.created_utc)).map get_post_details from rfl,
      filter_ge_eq_filter_not_lt]
  · rw [show search_posts providerResults "month" now =
        (providerResults.filter fun (s : Submission) =>
          decide (now - 30 * 86400 ≤ s.created_utc)).map get_post_details from rfl,
      filter_ge_eq_filter_not_lt]
  · rw [show search_posts providerResults "year" now =
        (providerResults.filter fun (s : Submission) =>
          decide (now - 365 * 86400 ≤ s.created_utc)).map get_post_details from rfl,
      filter_ge_eq_filter_not_lt]
  · intro tf htf
    simp only [List.mem_cons, List.not_mem_nil, or_false, not_or] at htf
    obtain ⟨h1, h2, h3, h4, h5⟩ := htf
    simp [search_posts, compute_threshold, h1, h2, h3, h4, h5]

theorem search_posts_time_filter_cutoff_witness :
    (("bogus" : String) ∉ ["hour", "day", "week", "month", "year"]) ∧
    search_posts [⟨"p1", "t1", "b1", "u1", 5, 2, 100⟩] "bogus" 1000000 =
      [get_post_details ⟨"p1", "t1", "b1", "u1", 5, 2, 100⟩] :=
  ⟨by decide,
   (search_posts_time_filter_cutoff [⟨"p1", "t1", "b1", "u1", 5, 2, 100⟩] 1000000).2.2.2.2.2
     "bogus" (by decide)⟩

/-- C9: the output of `search_posts` is an order-preserving subsequence of
the provider result list: it is the image under `get_post_details` of a
sublist of the provider results (the local time-filter step only removes
elements, never reorders). -/
theorem search_posts_order_preserving (providerResults : List Submission)
    (time_filter : String) (now : Int) :
    ∃ kept : List Submission, kept.Sublist providerResults ∧
      search_posts providerResults time_filter now = kept.map get_post_details := by
  cases h : compute_threshold time_filter now with
  | none => exact ⟨providerResults, List.Sublist.refl _, by simp [search_posts, h]⟩
  | some cutoff =>
      exact ⟨providerResults.filter fun (s : Submission) =>
          decide (cutoff ≤ s.created_utc),
        List.filter_sublist _, by simp [search_posts, h]⟩

/-- C7: `get_submission_comments` returns the first `limit` comments (in
the order the comment-tree expansion yields) mapped to records, hence at
most `limit` of them (`Int.toNat` clamps a non-positive limit at zero,
matching the loop, cf. C10), and the `replace_more` expansion is invoked
exactly once per call. -/
theorem get_submission_comments_take_and_single_expansion (s : SubmissionC) (limit : Int) :
    (get_submission_comments s limit).1 =
      (s.commentsAfterExpansion.map toCommentRecord).take limit.toNat ∧
    (get_submission_comments s limit).1.length ≤ limit.toNat ∧
    (get_submission_comments s limit).2.count (ApiCall.replaceMore s.id) = 1 := by
  refine ⟨get_submission_comments_records s limit,
    get_submission_comments_length_le s limit, ?_⟩
  simp [get_submission_comments]

/-- C10: for every limit ≤ 0, `get_submission_comments` returns the empty
list — the take loop breaks before appending anything because `count`
starts at 0 with `0 >= limit` already true. -/
theorem get_submission_comments_nonpositive_limit (s : SubmissionC) (limit : Int)
    (h : limit ≤ 0) : (get_submission_comments s limit).1 = [] := by
  rw [get_submission_comments_records]
  have hz : limit.toNat = 0 := by omega
  rw [hz, List.take_zero]

theorem get_submission_comments_nonpositive_limit_witness :
    ((-2 : Int) ≤ 0 ∧
      (SubmissionC.mk "s1" [⟨"c1", "hi", 1, 5⟩]).commentsAfterExpansion ≠ []) ∧
    (get_submission_comments (SubmissionC.mk "s1" [⟨"c1", "hi", 1, 5⟩]) (-2)).1 = [] :=
  ⟨⟨by decide, by decide⟩,
   get_submission_comments_nonpositive_limit (SubmissionC.mk "s1" [⟨"c1", "hi", 1, 5⟩])
     (-2) (by decide)⟩

/-- C6: `search_comments_in_posts` returns exactly one record per post
returned by its internal `search_posts` call, in the same order; each
record carries that post's details plus the comment list obtained by
re-fetching the submission by the post's id, of length at most
`comment_limit` (clamped at zero for a non-positive limit). -/
theorem search_comments_in_posts_shape (providerResults : List Submission)
    (time_filter : String) (now : Int) (comment_limit : Int)
    (env : String → SubmissionC) :
    (search_comments_in_posts providerResults time_filter now comment_limit env).length =
      (search_posts providerResults time_filter now).length ∧
    ∀ i (hi : i < (search_comments_in_posts providerResults time_filter now
          comment_limit env).length)
      (hp : i < (search_posts providerResults time_filter now).length),
      ((search_comments_in_posts providerResults time_filter now comment_limit env).get
          ⟨i, hi⟩).post =
        (search_posts providerResults time_filter now).get ⟨i, hp⟩ ∧
      ((search_comments_in_posts providerResults time_filter now comment_limit env).get
          ⟨i, hi⟩).comments =
        (get_submission_comments
          (env ((search_posts providerResults time_filter now).get ⟨i, hp⟩).id)
          comment_limit).1 ∧
      ((search_comments_in_posts providerResults time_filter now comment_limit env).get
          ⟨i, hi⟩).comments.length ≤ comment_limit.toNat := by
  constructor
  · simp [search_comments_in_posts]
  · intro i hi hp
    refine ⟨?_, ?_, ?_⟩
    · simp [search_comments_in_posts, List.get_eq_getElem, List.getElem_map]
    · simp [search_comments_in_posts, List.get_eq_getElem, List.getElem_map]
    · simp only [search_comments_in_posts, List.get_eq_getElem, List.getElem_map]
      exact get_submission_comments_length_le _ _

theorem search_comments_in_posts_shape_witness :
    (0 < (search_comments_in_posts [⟨"p2", "t2", "b2", "u2", 6, 3, 999000⟩] "all"
        1000000 1 (fun _ => SubmissionC.mk "p2" [⟨"c1", "x", 1, 5⟩, ⟨"c2", "y", 2, 6⟩])).length ∧
      0 < (search_posts [⟨"p2", "t2", "b2", "u2", 6, 3, 999000⟩] "all" 1000000).length) ∧
    ((search_comments_in_posts [⟨"p2", "t2", "b2", "u2", 6, 3, 999000⟩] "all"
        1000000 1 (fun _ => SubmissionC.mk "p2" [⟨"c1", "x", 1, 5⟩, ⟨"c2", "y", 2, 6⟩])).get
      ⟨0, by decide⟩).comments.length ≤ (1 : Int).toNat :=
  ⟨⟨by decide, by decide⟩,
   ((search_comments_in_posts_shape [⟨"p2", "t2", "b2", "u2", 6, 3, 999000⟩] "all"
       1000000 1 (fun _ => SubmissionC.mk "p2" [⟨"c1", "x", 1, 5⟩, ⟨"c2", "y", 2, 6⟩])).2
     0 (by decide) (by decide)).2.2⟩

theorem claudeLoop_text_prefix (toolFn : String → String → Except String String)
    (ts : List String) (bs : List ClaudeBlock)
    (script : List ClaudeCompletion) (msgs : List Msg) (ft : List String) :
    claudeLoop toolFn (ts.map ClaudeBlock.text ++ bs) script msgs ft =
      claudeLoop toolFn bs script msgs (ft ++ ts) := by
  induction ts generalizing ft with
  | nil => simp
  | cons t ts ih =>
    simp only [List.map_cons, List.cons_append, claudeLoop, List.append_eq]
    rw [ih]
    congr 1
    simp

theorem chat_loop_eq_takeWhile (inputs : List String)
    (outcomes : List (Except String String)) :
    chat_loop inputs outcomes =
      (inputs.map String.trim).takeWhile fun q => q.toLower != "quit" := by
  induction inputs generalizing outcomes with
  | nil => simp [chat_loop]
  | cons line rest ih =>
    simp only [chat_loop, List.map_cons, List.takeWhile_cons]
    by_cases h : line.trim.toLower = "quit"
    · simp [h]
    · simp [h, ih]

/-- C8: given a scripted LLM whose completion is a single plain-text
fragment and no tool-invocation requests, both bindings of `respond`
return exactly that text; more generally, for a completion of text-only
fragments the Claude binding returns all of them newline-joined in
emission order. -/
theorem respond_plain_text_round_trip (s query system_prompt : String)
    (toolFn : String → String → Except String String) :
    process_query_claude toolFn [toClaudeBlocks [Fragment.text s]] [] query =
      QueryResult.ok s [Msg.plain "user" query] ∧
    process_query_gpt toolFn [toGptMessage [Fragment.text s]] [] system_prompt query =
      QueryResult.ok s [Msg.plain "system" system_prompt, Msg.plain "user" query] ∧
    ∀ ts : List String,
      process_query_claude toolFn [toClaudeBlocks (ts.map Fragment.text)] [] query =
        QueryResult.ok (String.intercalate "\n" ts) [Msg.plain "user" query] := by
  refine ⟨?_, ?_, ?_⟩
  · show process_query_claude toolFn [[ClaudeBlock.text s]] [] query = _
    simp [process_query_claude, claudeLoop]
    rfl
  · by_cases h : s = ""
    · subst h
      rfl
    · show gptLoop toolFn (toGptMessage [Fragment.text s]) []
        [Msg.plain "system" system_prompt, Msg.plain "user" query] [] = _
      simp only [toGptMessage, List.filterMap, gptLoop, contentTruthy]
      rw [if_pos (by simpa using h)]
      rfl
  · intro ts
    have hblocks : toClaudeBlocks (ts.map Fragment.text) = ts.map ClaudeBlock.text := by
      simp [toClaudeBlocks, List.map_map]
    have hpre := claudeLoop_text_prefix toolFn ts [] [] [Msg.plain "user" query] []
    simp only [List.append_nil] at hpre
    simp [process_query_claude, hblocks, hpre, claudeLoop]

/-- C5: when the Tool Host invoke operation (`session.call_tool`) raises
during `respond`, either binding raises that same failure to its caller,
and the session history is left in the partial state it had reached — for
both bindings the only message appended before the failing call is the
user message (plus, for a fresh GPT session, the system prompt). -/
theorem call_tool_failure_propagates
    (toolFn : String → String → Except String String)
    (name args e : String) (ts : List String) (more : List ClaudeBlock)
    (script : List ClaudeCompletion) (msgs : List Msg) (query : String)
    (gcontent : Option String) (tcId : String) (gpost : List GptToolCall)
    (gscript : List GptMessage) (gmsgs : List Msg)
    (system_prompt gquery : String)
    (h : toolFn name args = Except.error e) :
    process_query_claude toolFn
        ((ts.map ClaudeBlock.text ++ ClaudeBlock.toolUse name args :: more) :: script)
        msgs query =
      QueryResult.err e (msgs ++ [Msg.plain "user" query]) ∧
    process_query_gpt toolFn
        ({ content := gcontent, tool_calls := ⟨tcId, name, args⟩ :: gpost } :: gscript)
        gmsgs system_prompt gquery =
      QueryResult.err e
        ((if gmsgs.isEmpty then [Msg.plain "system" system_prompt] else gmsgs) ++
          [Msg.plain "user" gquery]) := by
  constructor
  · simp only [process_query_claude, claudeLoop_text_prefix, claudeLoop, h]
  · simp only [process_query_gpt, gptLoop, gptToolCalls, h]

theorem call_tool_failure_propagates_witness :
    ((fun (_ _ : String) => (Except.error "boom" : Except String String)) "T" "a=1" =
      Except.error "boom") ∧
    process_query_claude (fun _ _ => Except.error "boom")
        [[ClaudeBlock.toolUse "T" "a=1"]] [] "q" =
      QueryResult.err "boom" [Msg.plain "user" "q"] :=
  ⟨rfl,
   (call_tool_failure_propagates (fun _ _ => Except.error "boom") "T" "a=1" "boom"
     [] [] [] [] "q" none "c1" [] [] [] "sp" "gq" rfl).1⟩

/-- C2 counterexample: in a Claude-binding turn that processed one tool
request followed by a plain-text completion, the session history is just
the user message followed by the tool result appended with role "user" —
it contains no assistant message at all (neither the tool-requesting
assistant message the claim requires, nor the final assistant text), so
the claimed history shape fails. -/
theorem claude_history_lacks_assistant_messages :
    (process_query_claude (fun _ _ => Except.ok "r")
        [[ClaudeBlock.toolUse "T" "a=1"], [ClaudeBlock.text "done"]] [] "q").history =
      [Msg.plain "user" "q", Msg.plain "user" "r"] ∧
    ((process_query_claude (fun _ _ => Except.ok "r")
        [[ClaudeBlock.toolUse "T" "a=1"], [ClaudeBlock.text "done"]] [] "q").history.all
      fun m => m.role != "assistant") = true := by
  decide

/-- C2 amended: after a turn that processed one tool request followed by a
plain-text completion, the GPT binding's history is, in order: the system
message (for a fresh session), the user message, the assistant message
that requested the tool, and the tool-result message immediately following
it — the final assistant text is not appended to the history.  The Claude
binding appends no assistant message at all: only the user message and the
tool result, the latter with role "user". -/
theorem history_after_one_tool_turn (query name args tcId result s system_prompt : String)
    (toolFn : String → String → Except String String)
    (h : toolFn name args = Except.ok result) (hs : s ≠ "") :
    process_query_gpt toolFn
        [{ content := none, tool_calls := [⟨tcId, name, args⟩] },
         { content := some s, tool_calls := [] }] [] system_prompt query =
      QueryResult.ok (String.intercalate "\n" [callTrace name args, s])
        [Msg.plain "system" system_prompt, Msg.plain "user" query,
         Msg.gptAssistant { content := none, tool_calls := [⟨tcId, name, args⟩] },
         Msg.toolMsg tcId result] ∧
    process_query_claude toolFn
        [[ClaudeBlock.toolUse name args], [ClaudeBlock.text s]] [] query =
      QueryResult.ok (String.intercalate "\n" [callTrace name args, s])
        [Msg.plain "user" query, Msg.plain "user" result] := by
  constructor
  · simp only [process_query_gpt, gptLoop, gptToolCalls, contentTruthy, h]
    rw [if_pos (by simpa using hs)]
    rfl
  · simp [process_query_claude, claudeLoop, h]

theorem history_after_one_tool_turn_witness :
    ((fun (_ _ : String) => (Except.ok "r" : Except String String)) "T" "a=1" =
        Except.ok "r" ∧ ("done" : String) ≠ "") ∧
    process_query_gpt (fun _ _ => Except.ok "r")
        [{ content := none, tool_calls := [⟨"c1", "T", "a=1"⟩] },
         { content := some "done", tool_calls := [] }] [] "sp" "q" =
      QueryResult.ok (String.intercalate "\n" [callTrace "T" "a=1", "done"])
        [Msg.plain "system" "sp", Msg.plain "user" "q",
         Msg.gptAssistant { content := none, tool_calls := [⟨"c1", "T", "a=1"⟩] },
         Msg.toolMsg "c1" "r"] :=
  ⟨⟨rfl, by decide⟩,
   (history_after_one_tool_turn "q" "T" "a=1" "c1" "r" "done" "sp"
     (fun _ _ => Except.ok "r") rfl (by decide)).1⟩

/-- C1 counterexample: on the same scripted completion sequence
(tool request T; then text "mid" plus tool request U; then text "done"),
rendered in each provider's shape, the two bindings return different
output: the GPT binding processes the follow-up tool request U, the Claude
binding never re-inspects the follow-up completion and stops after
appending its first text fragment. -/
theorem provider_bindings_output_differs :
    (process_query_claude (fun _ _ => Except.ok "okres")
        ([[Fragment.toolReq "T" "a=1"],
          [Fragment.text "mid", Fragment.toolReq "U" "b=2"],
          [Fragment.text "done"]].map toClaudeBlocks) [] "q").answer? ≠
    (process_query_gpt (fun _ _ => Except.ok "okres")
        ([[Fragment.toolReq "T" "a=1"],
          [Fragment.text "mid", Fragment.toolReq "U" "b=2"],
          [Fragment.text "done"]].map toGptMessage) [] "sp" "q").answer? := by
  decide

/-- C1 amended: the GPT binding has the claimed loop shape — it stops
exactly when a completion carries zero tool-invocation requests, and after
processing a completion's tool calls it re-enters the loop on the next
completion with the updated history; the Claude binding does not re-inspect
follow-up completions, so the bindings agree only in restricted cases such
as an initial completion consisting of one plain-text fragment and no tool
requests, where both return exactly that text. -/
theorem provider_bindings_shape_amended :
    (∀ (toolFn : String → String → Except String String) (message : GptMessage)
      (script : List GptMessage) (msgs : List Msg) (ft : List String),
      message.tool_calls = [] →
      gptLoop toolFn message script msgs ft =
        QueryResult.ok (String.intercalate "\n"
          (if contentTruthy message.content then ft ++ [message.content.getD ""] else ft))
          msgs) ∧
    (∀ (toolFn : String → String → Except String String) (message m2 : GptMessage)
      (script : List GptMessage) (msgs msgs2 : List Msg) (ft ft2 : List String),
      message.tool_calls ≠ [] →
      gptToolCalls toolFn message message.tool_calls msgs
          (if contentTruthy message.content then ft ++ [message.content.getD ""] else ft) =
        Except.ok (msgs2, ft2) →
      gptLoop toolFn message (m2 :: script) msgs ft = gptLoop toolFn m2 script msgs2 ft2) ∧
    (∀ (toolFn : String → String → Except String String) (s query system_prompt : String)
      (cscript : List ClaudeCompletion) (gscript : List GptMessage)
      (cmsgs gmsgs : List Msg),
      (process_query_claude toolFn ([ClaudeBlock.text s] :: cscript) cmsgs query).answer? =
        some s ∧
      (process_query_gpt toolFn
          ({ content := some s, tool_calls := [] } :: gscript) gmsgs system_prompt
          query).answer? = some s) := by
  refine ⟨?_, ?_, ?_⟩
  · intro toolFn message script msgs ft hstop
    simp only [gptLoop, hstop]
  · intro toolFn message m2 script msgs msgs2 ft ft2 hne hok
    rw [gptLoop]
    cases hcalls : message.tool_calls with
    | nil => exact absurd hcalls hne
    | cons tc rest =>
      rw [hcalls] at hok
      simp only [hok]
  · intro toolFn s query system_prompt cscript gscript cmsgs gmsgs
    constructor
    · simp [process_query_claude, claudeLoop, QueryResult.answer?]
      rfl
    · by_cases h : s = ""
      · subst h
        simp [process_query_gpt, gptLoop, contentTruthy, QueryResult.answer?]
        rfl
      · simp only [process_query_gpt, gptLoop, contentTruthy, QueryResult.answer?]
        rw [if_pos (by simpa using h)]
        rfl

theorem provider_bindings_shape_amended_witness :
    ((GptMessage.mk (some "x") []).tool_calls = [] ∧
      (GptMessage.mk none [⟨"c1", "T", "a=1"⟩]).tool_calls ≠ [] ∧
      gptToolCalls (fun _ _ => Except.ok "r") (GptMessage.mk none [⟨"c1", "T", "a=1"⟩])
          (GptMessage.mk none [⟨"c1", "T", "a=1"⟩]).tool_calls [] ([] : List String) =
        Except.ok ([Msg.gptAssistant (GptMessage.mk none [⟨"c1", "T", "a=1"⟩]),
          Msg.toolMsg "c1" "r"], [callTrace "T" "a=1"])) ∧
    gptLoop (fun _ _ => Except.ok "r") (GptMessage.mk (some "x") []) [] [] [] =
      QueryResult.ok "x" [] ∧
    gptLoop (fun _ _ => Except.ok "r") (GptMessage.mk none [⟨"c1", "T", "a=1"⟩])
        [GptMessage.mk (some "done") []] [] [] =
      gptLoop (fun _ _ => Except.ok "r") (GptMessage.mk (some "done") []) []
        [Msg.gptAssistant (GptMessage.mk none [⟨"c1", "T", "a=1"⟩]), Msg.toolMsg "c1" "r"]
        [callTrace "T" "a=1"] := by
  refine ⟨⟨rfl, by decide, rfl⟩, ?_, ?_⟩
  · have h := provider_bindings_shape_amended.1 (fun _ _ => Except.ok "r")
      (GptMessage.mk (some "x") []) [] [] [] rfl
    simpa using h
  · exact provider_bindings_shape_amended.2.1 (fun _ _ => Except.ok "r")
      (GptMessage.mk none [⟨"c1", "T", "a=1"⟩]) (GptMessage.mk (some "done") []) []
      [] _ [] _ (by decide) rfl

/-- C4 counterexample: in the non-interactive `query_loop`, after
`process_query_claude` raises on the first attempt, the very same query is
issued again — the invocation list for one failing then one succeeding
outcome is the query twice, refuting "no retries exist anywhere in the
system". -/
theorem query_loop_reissues_failed_query :
    (query_loop "q" [Except.error "boom", Except.ok "x"]).1 = ["q", "q"] ∧
    (query_loop "q" [Except.error "boom", Except.ok "x"]).1.length = 2 := by
  decide

/-- C4 amended: the interactive chat loop never re-issues a failed query —
its invocation sequence is independent of the respond outcomes and equal to
the stripped input lines up to the first (case-insensitive) "quit", each
issued once.  The non-interactive `query_loop`, however, does retry: after
an exception it re-issues the same query, and it stops issuing only when a
call succeeds. -/
theorem retry_behavior_of_entry_loops :
    (∀ (inputs : List String) (outcomes outcomes2 : List (Except String String)),
      chat_loop inputs outcomes = chat_loop inputs outcomes2 ∧
      chat_loop inputs outcomes =
        (inputs.map String.trim).takeWhile fun q => q.toLower != "quit") ∧
    (∀ (query e : String) (rest : List (Except String String)),
      (query_loop query (Except.error e :: rest)).1 =
        query :: (query_loop query rest).1) ∧
    (∀ (query r : String) (rest : List (Except String String)),
      query_loop query (Except.ok r :: rest) = ([query], some r)) := by
  refine ⟨fun inputs o1 o2 => ⟨?_, chat_loop_eq_takeWhile inputs o1⟩,
    fun _ _ _ => rfl, fun _ _ _ => rfl⟩
  rw [chat_loop_eq_takeWhile inputs o1, chat_loop_eq_takeWhile inputs o2]

end RedditMcp
